import Mathlib

/-!
# Verification of the Fluent Playground gist façade

A shallow embedding of `src/main.rs` of `projectfluent/playground`: the
Snippet ↔ gist mapping layer (`From<gists::Gist> for Playground`,
`From<Playground> for gists::GistOptions`), the route handlers, the JSON
response helper, and the CORS configuration, together with proofs of the
specification's testable properties.

The program delegates JSON serialization to `serde_json`.  That external
collaborator is embedded here concretely as an inductive `Json` value type
with a compact renderer and a recursive-descent parser; numbers are embedded
as integers (the repository never produces non-integer numbers itself), and
string escaping covers the quote and backslash characters used by the
round-trip law.
-/

/-- JSON values as manipulated by the program (`serde_json::Value`);
numbers are embedded as integers. -/
inductive Json where
  | null : Json
  | bool (b : Bool) : Json
  | num (n : Int) : Json
  | str (s : String) : Json
  | arr (elems : List Json) : Json
  | obj (entries : List (String × Json)) : Json

namespace Json

/-- The character for a decimal digit `d < 10`. -/
def digitToChar (d : Nat) : Char := Char.ofNat (48 + d)

/-- The decimal digit denoted by a digit character. -/
def charToDigit (c : Char) : Nat := c.toNat - 48

/-- Decimal digits of a positive number, most significant first; `fuel`
bounds the recursion depth and any `fuel ≥ m` is enough. -/
def natDigitsAux : Nat → Nat → List Char
  | 0, _ => []
  | fuel + 1, m =>
    if m = 0 then [] else natDigitsAux fuel (m / 10) ++ [digitToChar (m % 10)]

/-- Decimal rendering of a natural number, most significant digit first. -/
def natDigits (m : Nat) : List Char :=
  if m = 0 then ['0'] else natDigitsAux m m

/-- Decimal rendering of an integer. -/
def renderNum : Int → List Char
  | .ofNat m => natDigits m
  | .negSucc m => '-' :: natDigits (m + 1)

/-- JSON string escaping for one character (quote and backslash). -/
def escapeChar (c : Char) : List Char :=
  if c = '\"' ∨ c = '\\' then ['\\', c] else [c]

/-- JSON string escaping for a character sequence. -/
def escapeList : List Char → List Char
  | [] => []
  | c :: cs => escapeChar c ++ escapeList cs

/-- Rendering of a JSON string literal, including the delimiting quotes. -/
def renderStr (s : String) : List Char :=
  '\"' :: (escapeList s.data ++ ['\"'])

mutual

/-- Compact rendering of a JSON value (`serde_json::ser::to_string`). -/
def renderJson : Json → List Char
  | .null => "null".data
  | .bool true => "true".data
  | .bool false => "false".data
  | .num n => renderNum n
  | .str s => renderStr s
  | .arr xs => '[' :: (renderElems xs ++ [']'])
  | .obj kvs => '\x7b' :: (renderMembers kvs ++ ['\x7d'])

/-- Rendering of comma-separated array elements. -/
def renderElems : List Json → List Char
  | [] => []
  | [x] => renderJson x
  | x :: y :: xs => renderJson x ++ ',' :: renderElems (y :: xs)

/-- Rendering of comma-separated object members. -/
def renderMembers : List (String × Json) → List Char
  | [] => []
  | [(k, v)] => renderStr k ++ ':' :: renderJson v
  | (k, v) :: kv :: kvs =>
      renderStr k ++ ':' :: renderJson v ++ ',' :: renderMembers (kv :: kvs)
end

/-- Compact JSON serialization to a string. -/
def render (v : Json) : String := String.mk (renderJson v)

/-- Split a leading run of decimal digit characters off the input. -/
def parseDigitsAux : List Char → (List Char × List Char)
  | [] => ([], [])
  | c :: cs =>
    if c.isDigit then
      match parseDigitsAux cs with
      | (ds, r) => (c :: ds, r)
    else ([], c :: cs)

/-- The natural number denoted by a run of decimal digit characters,
most significant digit first. -/
def digitsToNat (ds : List Char) : Nat :=
  Nat.ofDigits 10 ((ds.map charToDigit).reverse)

/-- Parse a JSON number (an optional minus sign and a run of digits). -/
def parseNumber : List Char → Option (Json × List Char)
  | [] => none
  | c :: cs =>
    if c = '-' then
      match parseDigitsAux cs with
      | (d :: ds, r) => some (.num (-(digitsToNat (d :: ds) : Int)), r)
      | ([], _) => none
    else
      match parseDigitsAux (c :: cs) with
      | (d :: ds, r) => some (.num ((digitsToNat (d :: ds) : Int)), r)
      | ([], _) => none

/-- Parse the body of a JSON string literal up to and including the closing
quote, undoing the escaping of `escapeChar`. -/
def parseStrChars : List Char → Option (List Char × List Char)
  | [] => none
  | c :: cs =>
    if c = '\\' then
      match cs with
      | c2 :: cs2 =>
        match parseStrChars cs2 with
        | some (s, r) => some (c2 :: s, r)
        | none => none
      | [] => none
    else if c = '\"' then some ([], cs)
    else
      match parseStrChars cs with
      | some (s, r) => some (c :: s, r)
      | none => none

mutual

/-- Fuel-indexed recursive-descent parser for one JSON value. -/
def parseValue : Nat → List Char → Option (Json × List Char)
  | 0, _ => none
  | _ + 1, [] => none
  | fuel + 1, c :: cs =>
    if c.isDigit ∨ c = '-' then parseNumber (c :: cs)
    else if c = '\"' then
      match parseStrChars cs with
      | some (s, r) => some (.str (String.mk s), r)
      | none => none
    else if c = '[' then
      if cs.head? = some ']' then some (.arr [], cs.tail)
      else
        match parseElems fuel cs with
        | some (xs, r) => some (.arr xs, r)
        | none => none
    else if c = '\x7b' then
      if cs.head? = some '\x7d' then some (.obj [], cs.tail)
      else
        match parseMembers fuel cs with
        | some (kvs, r) => some (.obj kvs, r)
        | none => none
    else if c = 'n' then
      match cs with
      | 'u' :: 'l' :: 'l' :: rest => some (.null, rest)
      | _ => none
    else if c = 't' then
      match cs with
      | 'r' :: 'u' :: 'e' :: rest => some (.bool true, rest)
      | _ => none
    else if c = 'f' then
      match cs with
      | 'a' :: 'l' :: 's' :: 'e' :: rest => some (.bool false, rest)
      | _ => none
    else none

/-- Parse one or more comma-separated array elements and the closing
bracket. -/
def parseElems : Nat → List Char → Option (List Json × List Char)
  | 0, _ => none
  | fuel + 1, cs =>
    match parseValue fuel cs with
    | some (v, r) =>
      match r with
      | ',' :: r2 =>
        match parseElems fuel r2 with
        | some (xs, r3) => some (v :: xs, r3)
        | none => none
      | ']' :: r2 => some ([v], r2)
      | _ => none
    | none => none

/-- Parse one or more comma-separated object members and the closing
brace. -/
def parseMembers : Nat → List Char → Option (List (String × Json) × List Char)
  | 0, _ => none
  | fuel + 1, cs =>
    match cs with
    | '\"' :: cs1 =>
      match parseStrChars cs1 with
      | some (k, r1) =>
        match r1 with
        | ':' :: r2 =>
          match parseValue fuel r2 with
          | some (v, r3) =>
            match r3 with
            | ',' :: r4 =>
              match parseMembers fuel r4 with
              | some (kvs, r5) => some ((String.mk k, v) :: kvs, r5)
              | none => none
            | '\x7d' :: r4 => some ([(String.mk k, v)], r4)
            | _ => none
          | none => none
        | _ => none
      | none => none
    | _ => none
end

/-- JSON parsing of a whole string (`serde_json::from_str` for `Value`,
restricted to the compact grammar produced by `render`). -/
def parse (s : String) : Option Json :=
  match parseValue (s.length + 1) s.data with
  | some (v, []) => some v
  | _ => none

/-- The remainder does not start with a decimal digit (so a preceding
number token cannot absorb it). -/
def noDigitHead (cs : List Char) : Prop :=
  ∀ c, cs.head? = some c → c.isDigit = false

end Json

/-- A stored gist file as returned by the provider (`hubcaps::gists::GistFile`,
restricted to the one field the program reads). -/
structure GistFile where
  content : Option String

/-- A gist as returned by the provider (`hubcaps::gists::Gist`, restricted to
the fields the program reads). -/
structure Gist where
  id : String
  files : List (String × GistFile)

/-- A file submitted on gist creation (`hubcaps::gists::Content`). -/
structure GistContent where
  filename : Option String
  content : String

/-- A gist-creation request (`hubcaps::gists::GistOptions`); `files` keeps the
insertion order of `main.rs` lines 117-138. -/
structure GistOptions where
  description : Option String
  public : Option Bool
  files : List (String × GistContent)

/-- The snippet exchanged with the web client (`struct Playground`,
`main.rs` lines 67-73).  The source field `variables` is spelled `vars`
here because `variables` is reserved in Lean 4. -/
structure Playground where
  id : Option String
  messages : String
  vars : Json
  setup : Json

/-- Keyed lookup in a gist's file map (`gist.files.get(name)`). -/
def lookupFile : List (String × GistFile) → String → Option GistFile
  | [], _ => none
  | (n, f) :: rest, name => if n = name then some f else lookupFile rest name

/-- Keyed lookup in a gist-creation request's file map. -/
def lookupContent : List (String × GistContent) → String → Option GistContent
  | [], _ => none
  | (n, f) :: rest, name => if n = name then some f else lookupContent rest name

/-- The failure conditions of the record → snippet direction of the mapper,
one per fallible step of `From<gists::Gist> for Playground`:
`MissingField name` when `gist.files.get(name)` finds no entry,
`MissingContent name` when the entry is present but its optional `content`
is absent, and `MalformedContent name` when the entry's content is not
valid JSON. -/
inductive MapError where
  | MissingField (name : String)
  | MissingContent (name : String)
  | MalformedContent (name : String)

/-- The helper `get_file_content` (`main.rs` lines 100-102): looks an entry up by name
and extracts its content; each `unwrap` is embedded as a distinct error. -/
def get_file_content (gist : Gist) (name : String) : Except MapError String :=
  match lookupFile gist.files name with
  | none => .error (.MissingField name)
  | some file =>
    match file.content with
    | none => .error (.MissingContent name)
    | some c => .ok c

/-- JSON parsing of an entry's content, as a mapper step
(`serde_json::from_str(...)` with its `unwrap` embedded as an error). -/
def parseContent (name : String) (content : String) : Except MapError Json :=
  match Json.parse content with
  | some v => .ok v
  | none => .error (.MalformedContent name)

/-- The record → snippet direction of the mapper
(`impl From<gists::Gist> for Playground`, `main.rs` lines 104-113), with the
fallible steps in the evaluation order of the struct literal. -/
def Playground.fromGist (gist : Gist) : Except MapError Playground :=
  match get_file_content gist "playground.ftl" with
  | .error e => .error e
  | .ok messages =>
    match get_file_content gist "playground.json" with
    | .error e => .error e
    | .ok varsRaw =>
      match parseContent "playground.json" varsRaw with
      | .error e => .error e
      | .ok vars =>
        match get_file_content gist "setup.json" with
        | .error e => .error e
        | .ok setupRaw =>
          match parseContent "setup.json" setupRaw with
          | .error e => .error e
          | .ok setup =>
            .ok { id := some gist.id, messages := messages,
                  vars := vars, setup := setup }

/-- The snippet → record direction of the mapper
(`impl From<Playground> for gists::GistOptions`, `main.rs` lines 115-145). -/
def GistOptions.fromPlayground (p : Playground) : GistOptions :=
  { description := some "A Fluent Playground snippet"
    public := some true
    files :=
      [("playground.ftl", { filename := none, content := p.messages }),
       ("playground.json", { filename := none, content := Json.render p.vars }),
       ("setup.json", { filename := none, content := Json.render p.setup })] }

/-- The serialization failure of `serde_json` (`serde_json::Error`), carried
only as evidence that the fallible interface exists. -/
structure SerError where

/-- Modelled from the spec: `serde_json::ser::to_string` on an in-memory
JSON value, exposed through its fallible `Result` interface.  Per §4.1,
serialization of an already-in-memory JSON value "always succeeds", so the
error branch is never taken. -/
def renderE (v : Json) : Except SerError String := .ok (Json.render v)

/-- The snippet → record direction with the two serialization `unwrap`s of
`main.rs` lines 129 and 136 kept as explicit fallible steps. -/
def GistOptions.fromPlaygroundE (p : Playground) : Except SerError GistOptions :=
  match renderE p.vars with
  | .error e => .error e
  | .ok vars =>
    match renderE p.setup with
    | .error e => .error e
    | .ok setup =>
      .ok { description := some "A Fluent Playground snippet"
            public := some true
            files :=
              [("playground.ftl", { filename := none, content := p.messages }),
               ("playground.json", { filename := none, content := vars }),
               ("setup.json", { filename := none, content := setup })] }

/-- Modelled from the spec: the provider's canonical copy of a created
record (§3, §4.2) — each named text entry is stored verbatim with its
content present, and the provider assigns the identifier. -/
def Gist.ofOptions (id : String) (o : GistOptions) : Gist :=
  { id := id
    files := o.files.map (fun kv => (kv.1, { content := some kv.2.content })) }

/-- First-match lookup of an object member by key (serde's field lookup
during struct deserialization). -/
def lookupJson : List (String × Json) → String → Option Json
  | [], _ => none
  | (k, v) :: rest, key => if k = key then some v else lookupJson rest key

/-- The serde serialization of a `Playground` as a JSON value (derived
`Serialize` on `struct Playground`, field order as declared; a `None` id
serializes to JSON null). -/
def playgroundToJson (p : Playground) : Json :=
  .obj [("id", match p.id with | none => .null | some i => .str i),
        ("messages", .str p.messages),
        ("variables", p.vars),
        ("setup", p.setup)]

/-- Serialization `serde_json::ser::to_string` for a `Playground` value, exposed through
its fallible interface; it cannot actually fail. -/
def serPlayground (p : Playground) : Except SerError String :=
  .ok (Json.render (playgroundToJson p))

/-- Deserialization `serde_json::from_str::<Playground>` (`main.rs` line 92): parse the body
as JSON and deserialize the derived `Playground` shape — `messages` must be
a string, `variables` and `setup` must be present, `id` may be absent, null
or a string (derived `Deserialize` treats `Option` fields as optional). -/
def parsePlayground (s : String) : Option Playground :=
  match Json.parse s with
  | some (.obj kvs) =>
    match lookupJson kvs "messages" with
    | some (.str m) =>
      match lookupJson kvs "variables", lookupJson kvs "setup" with
      | some vars, some setup =>
        match lookupJson kvs "id" with
        | none => some { id := none, messages := m, vars := vars, setup := setup }
        | some .null => some { id := none, messages := m, vars := vars, setup := setup }
        | some (.str i) => some { id := some i, messages := m, vars := vars, setup := setup }
        | some _ => none
      | _, _ => none
    | _ => none
  | _ => none

/-- An HTTP response as constructed by the program (status, content type
and body are the only parts it ever sets). -/
structure HttpResponse where
  status : Nat
  contentType : String
  body : String

/-- The helper `json_response` (`main.rs` lines 147-160): status 200 with the
serialized payload on success, status 500 with a fixed JSON error body on
serialization failure. -/
def json_response {α : Type} (ser : α → Except SerError String) (payload : α) :
    HttpResponse :=
  match ser payload with
  | .ok body => { status := 200, contentType := "application/json", body := body }
  | .error _ =>
    { status := 500, contentType := "application/json",
      body := "\x7b\"error\": \"Error serializing response\"\x7d" }

/-- The service-identity payload (`struct Index`, `main.rs` lines 54-58). -/
structure Index where
  name : String
  version : String

/-- Serde serialization of the `Index` payload. -/
def serIndex (i : Index) : Except SerError String :=
  .ok (Json.render (.obj [("name", .str i.name), ("version", .str i.version)]))

/-- The handler `index_get` (`main.rs` lines 60-65); the name and version come from the
build environment (`CARGO_PKG_NAME`/`CARGO_PKG_VERSION`), so they are
parameters here. -/
def index_get (name version : String) : HttpResponse :=
  json_response serIndex { name := name, version := version }

/-- A provider-side failure of a gist API call (`hubcaps::Error`, treated
as opaque). -/
structure ProviderError where

/-- The ways a fetch/create request aborts before producing a response;
in the source each is an `unwrap`/`expect` panic site
(`main.rs` lines 92, 96 and the mapper's unwraps). -/
inductive HandlerFailure where
  | BadRequest
  | Provider (e : ProviderError)
  | Mapping (e : MapError)

/-- The handler `playground_get` (`main.rs` lines 75-85), parameterized by the
provider-call function `fetch` (`gists.get(id)` behind the blocking
runtime). -/
def playground_get (fetch : String → Except ProviderError Gist) (id : String) :
    Except HandlerFailure HttpResponse :=
  match fetch id with
  | .error e => .error (.Provider e)
  | .ok gist =>
    match Playground.fromGist gist with
    | .error e => .error (.Mapping e)
    | .ok p => .ok (json_response serPlayground p)

/-- The handler `playground_create` (`main.rs` lines 87-98), parameterized by the
provider-call function `create` (`gists.create(...)` behind the blocking
runtime): parse the body, map to `GistOptions`, call the provider, map the
result back, respond. -/
def playground_create (create : GistOptions → Except ProviderError Gist)
    (body : String) : Except HandlerFailure HttpResponse :=
  match parsePlayground body with
  | none => .error .BadRequest
  | some p =>
    match create (GistOptions.fromPlayground p) with
    | .error e => .error (.Provider e)
    | .ok gist =>
      match Playground.fromGist gist with
      | .error e => .error (.Mapping e)
      | .ok p2 => .ok (json_response serPlayground p2)

/-- The HTTP methods named by the CORS configuration. -/
inductive Method where
  | get
  | post

/-- The configuration fields of `corsware::CorsMiddleware` set in `main`. -/
structure CorsConfig where
  allowedOrigins : List String
  allowedHeaders : List String
  allowedMethods : List Method
  exposedHeaders : List String
  allowCredentials : Bool
  maxAgeSeconds : Nat
  preferWildcard : Bool

/-- The CORS configuration installed around the whole router
(`main.rs` lines 36-49). -/
def corsConfig : CorsConfig :=
  { allowedOrigins := ["https://projectfluent.org"]
    allowedHeaders := ["Content-Type"]
    allowedMethods := [.get, .post]
    exposedHeaders := []
    allowCredentials := false
    maxAgeSeconds := 60 * 60
    preferWildcard := false }

/-- The permissive CORS headers attached to a response. -/
structure CorsHeaders where
  allowOrigin : String
  allowMethods : List Method
  allowHeaders : List String
  allowCredentials : Bool
  maxAgeSeconds : Nat

/-- Modelled from the spec: the `corsware` middleware decision (§4.3) — it
wraps the full routing table uniformly, so it depends only on the request's
declared origin: an origin on the allow-list receives the permissive
headers drawn from the configuration, any other origin receives none. -/
def corsHeadersFor (cfg : CorsConfig) (origin : String) : Option CorsHeaders :=
  if origin ∈ cfg.allowedOrigins then
    some { allowOrigin := origin
           allowMethods := cfg.allowedMethods
           allowHeaders := cfg.allowedHeaders
           allowCredentials := cfg.allowCredentials
           maxAgeSeconds := cfg.maxAgeSeconds }
  else none

namespace Json

theorem natDigitsAux_zero (fuel : Nat) : natDigitsAux fuel 0 = [] := by
  cases fuel <;> simp [natDigitsAux]

theorem noDigitHead_nil : noDigitHead [] := by
  intro c h
  simp at h

theorem noDigitHead_cons {c : Char} (h : c.isDigit = false) (cs : List Char) :
    noDigitHead (c :: cs) := by
  intro c2 h2
  simp at h2
  exact h2 ▸ h

theorem charToDigit_digitToChar {d : Nat} (h : d < 10) :
    charToDigit (digitToChar d) = d := by
  interval_cases d <;> decide

theorem isDigit_digitToChar {d : Nat} (h : d < 10) :
    (digitToChar d).isDigit = true := by
  interval_cases d <;> decide

theorem digitsToNat_nil : digitsToNat [] = 0 := by
  simp [digitsToNat]

theorem digitsToNat_snoc (ds : List Char) (c : Char) :
    digitsToNat (ds ++ [c]) = charToDigit c + 10 * digitsToNat ds := by
  simp [digitsToNat, Nat.ofDigits_cons]

theorem natDigitsAux_spec :
    ∀ fuel m, 0 < m → m ≤ fuel →
      natDigitsAux fuel m ≠ [] ∧ (∀ c ∈ natDigitsAux fuel m, c.isDigit = true) ∧
        digitsToNat (natDigitsAux fuel m) = m := by
  intro fuel
  induction fuel with
  | zero => intro m hm hle; omega
  | succ f ih =>
    intro m hm hle
    have hm0 : m ≠ 0 := by omega
    rw [natDigitsAux, if_neg hm0]
    by_cases hq : m / 10 = 0
    · have hmlt : m < 10 := by omega
      have hmod : m % 10 = m := Nat.mod_eq_of_lt hmlt
      rw [hq, natDigitsAux_zero]
      refine ⟨by simp, ?_, ?_⟩
      · intro c hc
        simp at hc
        exact hc ▸ isDigit_digitToChar (by omega)
      · rw [List.nil_append, show [digitToChar (m % 10)] = [] ++ [digitToChar (m % 10)] by simp,
          digitsToNat_snoc, digitsToNat_nil, charToDigit_digitToChar (by omega)]
        omega
    · have hqpos : 0 < m / 10 := by omega
      have hqle : m / 10 ≤ f := by
        have := Nat.div_lt_self hm (by omega : 1 < 10)
        omega
      obtain ⟨hne, hdig, hval⟩ := ih (m / 10) hqpos hqle
      refine ⟨by simp, ?_, ?_⟩
      · intro c hc
        rw [List.mem_append] at hc
        rcases hc with hc | hc
        · exact hdig c hc
        · simp at hc
          exact hc ▸ isDigit_digitToChar (by omega)
      · rw [digitsToNat_snoc, hval, charToDigit_digitToChar (by omega)]
        omega

theorem natDigits_spec (m : Nat) :
    natDigits m ≠ [] ∧ (∀ c ∈ natDigits m, c.isDigit = true) ∧
      digitsToNat (natDigits m) = m := by
  rw [natDigits]
  by_cases hm : m = 0
  · rw [if_pos hm]
    exact ⟨by simp, by intro c hc; simp at hc; exact hc ▸ by decide, by rw [hm]; decide⟩
  · rw [if_neg hm]
    exact natDigitsAux_spec m m (by omega) le_rfl

theorem parseDigitsAux_append (ds rest : List Char)
    (hds : ∀ c ∈ ds, c.isDigit = true) (hrest : noDigitHead rest) :
    parseDigitsAux (ds ++ rest) = (ds, rest) := by
  induction ds with
  | nil =>
    rw [List.nil_append]
    cases rest with
    | nil => rfl
    | cons c r =>
      rw [parseDigitsAux, if_neg]
      rw [hrest c (by simp)]
      simp
  | cons c ds ih =>
    rw [List.cons_append, parseDigitsAux, if_pos (hds c (by simp)),
      ih (fun c2 h2 => hds c2 (by simp [h2]))]

theorem parseNumber_render (n : Int) (rest : List Char) (hrest : noDigitHead rest) :
    parseNumber (renderNum n ++ rest) = some (.num n, rest) := by
  cases n with
  | ofNat m =>
    obtain ⟨hne, hdig, hval⟩ := natDigits_spec m
    obtain ⟨c, cs, hcs⟩ := List.exists_cons_of_ne_nil hne
    have hcdig : c.isDigit = true := hdig c (by rw [hcs]; simp)
    have hnotminus : ¬(c = '-') := by
      intro hcm
      rw [hcm] at hcdig
      exact absurd hcdig (by decide)
    rw [renderNum, hcs, List.cons_append, parseNumber, if_neg hnotminus,
      ← List.cons_append, ← hcs, parseDigitsAux_append _ _ hdig hrest, hcs]
    rw [hcs] at hval
    simp [hval]
  | negSucc m =>
    obtain ⟨hne, hdig, hval⟩ := natDigits_spec (m + 1)
    obtain ⟨c, cs, hcs⟩ := List.exists_cons_of_ne_nil hne
    rw [renderNum, List.cons_append, parseNumber, if_pos rfl,
      parseDigitsAux_append _ _ hdig hrest, hcs]
    rw [hcs] at hval
    simp [hval, Int.negSucc_eq]

theorem parseStrChars_escape (cs rest : List Char) :
    parseStrChars (escapeList cs ++ '\"' :: rest) = some (cs, rest) := by
  induction cs with
  | nil =>
    rw [escapeList, List.nil_append, parseStrChars.eq_def]
    simp
  | cons c cs ih =>
    by_cases hc : c = '\"' ∨ c = '\\'
    · rcases hc with hc | hc <;> subst hc <;>
        · simp only [escapeList, escapeChar, List.cons_append, List.nil_append,
            List.append_assoc, if_pos (by tauto)]
          rw [parseStrChars.eq_def]
          simp [ih]
    · push_neg at hc
      simp only [escapeList, escapeChar, List.cons_append, List.nil_append,
        List.append_assoc, if_neg (show ¬(c = '\"' ∨ c = '\\') by tauto)]
      rw [parseStrChars.eq_def]
      simp [hc.1, hc.2, ih]

theorem string_mk_data (s : String) : String.mk s.data = s := rfl

theorem renderJson_num (n : Int) : renderJson (.num n) = renderNum n := rfl

theorem renderJson_str (s : String) : renderJson (.str s) = renderStr s := rfl

theorem renderJson_arr (xs : List Json) :
    renderJson (.arr xs) = '[' :: (renderElems xs ++ [']']) := rfl

theorem renderJson_obj (kvs : List (String × Json)) :
    renderJson (.obj kvs) = '\x7b' :: (renderMembers kvs ++ ['\x7d']) := rfl

theorem renderElems_one (x : Json) : renderElems [x] = renderJson x := rfl

theorem renderElems_cons (x y : Json) (ys : List Json) :
    renderElems (x :: y :: ys) = renderJson x ++ ',' :: renderElems (y :: ys) := rfl

theorem renderMembers_one (k : String) (v : Json) :
    renderMembers [(k, v)] = renderStr k ++ ':' :: renderJson v := rfl

theorem renderMembers_cons (k : String) (v : Json) (kv : String × Json)
    (kvs : List (String × Json)) :
    renderMembers ((k, v) :: kv :: kvs) =
      renderStr k ++ ':' :: renderJson v ++ ',' :: renderMembers (kv :: kvs) := rfl

theorem parseValue_succ (f : Nat) (c : Char) (cs : List Char) :
    parseValue (f + 1) (c :: cs) =
      (if c.isDigit ∨ c = '-' then parseNumber (c :: cs)
      else if c = '\"' then
        match parseStrChars cs with
        | some (s, r) => some (.str (String.mk s), r)
        | none => none
      else if c = '[' then
        if cs.head? = some ']' then some (.arr [], cs.tail)
        else
          match parseElems f cs with
          | some (xs, r) => some (.arr xs, r)
          | none => none
      else if c = '\x7b' then
        if cs.head? = some '\x7d' then some (.obj [], cs.tail)
        else
          match parseMembers f cs with
          | some (kvs, r) => some (.obj kvs, r)
          | none => none
      else if c = 'n' then
        match cs with
        | 'u' :: 'l' :: 'l' :: rest => some (.null, rest)
        | _ => none
      else if c = 't' then
        match cs with
        | 'r' :: 'u' :: 'e' :: rest => some (.bool true, rest)
        | _ => none
      else if c = 'f' then
        match cs with
        | 'a' :: 'l' :: 's' :: 'e' :: rest => some (.bool false, rest)
        | _ => none
      else none) := rfl

theorem parseElems_succ (f : Nat) (cs : List Char) :
    parseElems (f + 1) cs =
      (match parseValue f cs with
      | some (v, r) =>
        match r with
        | ',' :: r2 =>
          match parseElems f r2 with
          | some (xs, r3) => some (v :: xs, r3)
          | none => none
        | ']' :: r2 => some ([v], r2)
        | _ => none
      | none => none) := rfl

theorem parseMembers_quote (f : Nat) (cs1 : List Char) :
    parseMembers (f + 1) ('\"' :: cs1) =
      (match parseStrChars cs1 with
      | some (k, r1) =>
        match r1 with
        | ':' :: r2 =>
          match parseValue f r2 with
          | some (v, r3) =>
            match r3 with
            | ',' :: r4 =>
              match parseMembers f r4 with
              | some (kvs, r5) => some ((String.mk k, v) :: kvs, r5)
              | none => none
            | '\x7d' :: r4 => some ([(String.mk k, v)], r4)
            | _ => none
          | none => none
        | _ => none
      | none => none) := rfl

theorem renderNum_head (n : Int) :
    ∃ c t, renderNum n = c :: t ∧ (c.isDigit = true ∨ c = '-') := by
  cases n with
  | ofNat m =>
    obtain ⟨hne, hdig, _⟩ := natDigits_spec m
    obtain ⟨c, t, hct⟩ := List.exists_cons_of_ne_nil hne
    exact ⟨c, t, by rw [renderNum, hct], Or.inl (hdig c (by rw [hct]; simp))⟩
  | negSucc m => exact ⟨'-', natDigits (m + 1), rfl, Or.inr rfl⟩

theorem renderJson_head (v : Json) : ∃ c t, renderJson v = c :: t ∧ c ≠ ']' := by
  cases v with
  | null => exact ⟨'n', _, rfl, by decide⟩
  | bool b =>
    cases b with
    | true => exact ⟨'t', _, rfl, by decide⟩
    | false => exact ⟨'f', _, rfl, by decide⟩
  | num n =>
    obtain ⟨c, t, hct, hcond⟩ := renderNum_head n
    refine ⟨c, t, by rw [renderJson_num, hct], ?_⟩
    rcases hcond with h | h
    · intro he
      rw [he] at h
      exact absurd h (by decide)
    · subst h
      decide
  | str s => exact ⟨'\"', _, rfl, by decide⟩
  | arr xs => exact ⟨'[', _, rfl, by decide⟩
  | obj kvs => exact ⟨'\x7b', _, rfl, by decide⟩

theorem renderElems_head (x : Json) (xs : List Json) :
    ∃ c t, renderElems (x :: xs) = c :: t ∧ c ≠ ']' := by
  obtain ⟨c, t, hct, hc⟩ := renderJson_head x
  cases xs with
  | nil => exact ⟨c, t, by rw [renderElems_one, hct], hc⟩
  | cons y ys =>
    exact ⟨c, t ++ ',' :: renderElems (y :: ys),
      by rw [renderElems_cons, hct, List.cons_append], hc⟩

theorem renderMembers_head (kv : String × Json) (kvs : List (String × Json)) :
    ∃ t, renderMembers (kv :: kvs) = '\"' :: t := by
  obtain ⟨k, v⟩ := kv
  cases kvs with
  | nil => exact ⟨_, rfl⟩
  | cons kv2 kvs2 => exact ⟨_, rfl⟩

theorem parse_render_core :
    ∀ fuel : Nat,
      (∀ v rest, (renderJson v).length < fuel → noDigitHead rest →
        parseValue fuel (renderJson v ++ rest) = some (v, rest))
      ∧ (∀ x xs rest, (renderElems (x :: xs)).length + 1 < fuel →
        parseElems fuel (renderElems (x :: xs) ++ ']' :: rest) = some (x :: xs, rest))
      ∧ (∀ kv kvs rest, (renderMembers (kv :: kvs)).length + 1 < fuel →
        parseMembers fuel (renderMembers (kv :: kvs) ++ '\x7d' :: rest) =
          some (kv :: kvs, rest)) := by
  intro fuel
  induction fuel with
  | zero =>
    exact ⟨fun v rest h _ => absurd h (by omega),
      fun x xs rest h => absurd h (by omega),
      fun kv kvs rest h => absurd h (by omega)⟩
  | succ f ih =>
    obtain ⟨ihv, ihe, ihm⟩ := ih
    refine ⟨?_, ?_, ?_⟩
    · intro v rest hlen hrest
      cases v with
      | null => rfl
      | bool b => cases b <;> rfl
      | num n =>
        obtain ⟨c, t, hct, hcond⟩ := renderNum_head n
        rw [renderJson_num, hct, List.cons_append, parseValue_succ, if_pos hcond,
          ← List.cons_append, ← hct, parseNumber_render n rest hrest]
      | str s =>
        rw [renderJson_str, renderStr]
        simp only [List.cons_append, List.append_assoc, List.singleton_append,
          List.nil_append]
        rw [parseValue_succ, if_neg (by decide), if_pos rfl,
          parseStrChars_escape s.data rest]
      | arr xs =>
        cases xs with
        | nil => rfl
        | cons y ys =>
          rw [renderJson_arr] at hlen ⊢
          simp only [List.cons_append, List.append_assoc, List.singleton_append,
            List.nil_append]
          rw [parseValue_succ, if_neg (by decide), if_neg (by decide), if_pos rfl]
          obtain ⟨c, t, hct, hc⟩ := renderElems_head y ys
          rw [hct, List.cons_append, if_neg (by simp [hc]), ← List.cons_append, ← hct]
          have hlen2 : (renderElems (y :: ys)).length + 1 < f := by
            simp [List.length_append] at hlen
            omega
          rw [ihe y ys rest hlen2]
      | obj kvs =>
        cases kvs with
        | nil => rfl
        | cons kv kvs2 =>
          rw [renderJson_obj] at hlen ⊢
          simp only [List.cons_append, List.append_assoc, List.singleton_append,
            List.nil_append]
          rw [parseValue_succ, if_neg (by decide), if_neg (by decide),
            if_neg (by decide), if_pos rfl]
          obtain ⟨t, hct⟩ := renderMembers_head kv kvs2
          rw [hct, List.cons_append, if_neg (by simp), ← List.cons_append, ← hct]
          have hlen2 : (renderMembers (kv :: kvs2)).length + 1 < f := by
            simp [List.length_append] at hlen
            omega
          rw [ihm kv kvs2 rest hlen2]
    · intro x xs rest hlen
      cases xs with
      | nil =>
        rw [renderElems_one] at hlen ⊢
        rw [parseElems_succ,
          ihv x (']' :: rest) (by omega) (noDigitHead_cons (by decide) rest)]
        rfl
      | cons y ys =>
        rw [renderElems_cons] at hlen ⊢
        simp only [List.length_append, List.length_cons, List.length_nil] at hlen
        simp only [List.cons_append, List.append_assoc, List.nil_append]
        have h1 := ihv x (',' :: (renderElems (y :: ys) ++ ']' :: rest))
          (by omega) (noDigitHead_cons (by decide) _)
        have h2 := ihe y ys rest (by omega)
        rw [parseElems_succ]
        simp [h1, h2]
    · intro kv kvs rest hlen
      obtain ⟨k, v⟩ := kv
      cases kvs with
      | nil =>
        rw [renderMembers_one, renderStr] at hlen ⊢
        simp only [List.length_append, List.length_cons, List.length_nil] at hlen
        simp only [List.cons_append, List.append_assoc, List.singleton_append,
          List.nil_append]
        rw [parseMembers_quote,
          parseStrChars_escape k.data (':' :: (renderJson v ++ '\x7d' :: rest))]
        have h1 := ihv v ('\x7d' :: rest) (by omega) (noDigitHead_cons (by decide) rest)
        simp [h1, string_mk_data]
      | cons kv2 kvs2 =>
        rw [renderMembers_cons, renderStr] at hlen ⊢
        simp only [List.length_append, List.length_cons, List.length_nil] at hlen
        simp only [List.cons_append, List.append_assoc, List.singleton_append,
          List.nil_append]
        rw [parseMembers_quote,
          parseStrChars_escape k.data
            (':' :: (renderJson v ++ ',' :: (renderMembers (kv2 :: kvs2) ++ '\x7d' :: rest)))]
        have h1 := ihv v (',' :: (renderMembers (kv2 :: kvs2) ++ '\x7d' :: rest))
          (by omega) (noDigitHead_cons (by decide) _)
        have h2 := ihm kv2 kvs2 rest (by omega)
        simp [h1, h2, string_mk_data]

/-- The `serde_json` round-trip: parsing a compact rendering gives back the
original JSON value. -/
theorem parse_render (v : Json) : parse (render v) = some v := by
  have h := (parse_render_core ((renderJson v).length + 1)).1 v [] (by omega) noDigitHead_nil
  rw [List.append_nil] at h
  have e1 : (render v).length = (renderJson v).length := rfl
  have e2 : (render v).data = renderJson v := rfl
  rw [parse, e1, e2, h]

end Json



/-- Claim C1: round-trip of the Snippet Mapper — for every snippet (any
messages string, any JSON values for variables and setup), mapping through
`From<Playground> for GistOptions` and, after the provider stores the
record, back through `From<Gist> for Playground` reproduces `messages`,
`variables` and `setup` exactly (the identifier is provider-assigned). -/
theorem mapper_roundtrip (s : Playground) (gid : String) :
    Playground.fromGist (Gist.ofOptions gid (GistOptions.fromPlayground s)) =
      .ok { id := some gid, messages := s.messages, vars := s.vars, setup := s.setup } := by
  simp [Playground.fromGist, GistOptions.fromPlayground, Gist.ofOptions,
    get_file_content, parseContent, lookupFile, Json.parse_render]

/-- Claim C2: `toExternal` produces exactly three named text entries —
`playground.ftl` holding the messages string unmodified, `playground.json`
holding the JSON serialization of `variables`, `setup.json` holding the
JSON serialization of `setup` — plus the fixed description
"A Fluent Playground snippet" and a public flag set to true. -/
theorem toExternal_shape (p : Playground) :
    (GistOptions.fromPlayground p).files.length = 3 ∧
    lookupContent (GistOptions.fromPlayground p).files "playground.ftl" =
      some { filename := none, content := p.messages } ∧
    lookupContent (GistOptions.fromPlayground p).files "playground.json" =
      some { filename := none, content := Json.render p.vars } ∧
    lookupContent (GistOptions.fromPlayground p).files "setup.json" =
      some { filename := none, content := Json.render p.setup } ∧
    (GistOptions.fromPlayground p).description = some "A Fluent Playground snippet" ∧
    (GistOptions.fromPlayground p).public = some true := by
  refine ⟨rfl, ?_, ?_, ?_, rfl, rfl⟩ <;> simp [GistOptions.fromPlayground, lookupContent]

/-- Claim C10: the snippet → record direction is total — the serialization
failure branches of `From<Playground> for GistOptions` (the `unwrap`s on
serializing `variables` and `setup`) are never taken, and `toExternal`
succeeds for every snippet. -/
theorem toExternal_total (p : Playground) :
    GistOptions.fromPlaygroundE p = .ok (GistOptions.fromPlayground p) := rfl

/-- Claim C3, counterexample: as stated the claim is false — a record
lacking `setup.json` does not necessarily fail with `MissingField`
naming `setup.json`; on the empty record (which lacks all three entries,
in particular `setup.json`) the mapper fails naming `playground.ftl`,
the first lookup in evaluation order. -/
theorem fromGist_missing_counterexample :
    lookupFile (Gist.files { id := "g", files := [] }) "setup.json" = none ∧
    Playground.fromGist { id := "g", files := [] } =
      .error (.MissingField "playground.ftl") ∧
    MapError.MissingField "playground.ftl" ≠ MapError.MissingField "setup.json" := by
  refine ⟨rfl, rfl, ?_⟩
  intro h
  injection h with h2
  exact absurd h2 (by decide)

/-- Claim C3 (amended): for each of the three named entries, `fromExternal`
on a record lacking that entry — the entries earlier in evaluation order
(`playground.ftl`, then `playground.json`, then `setup.json`) being present
and readable — fails with `MissingField` naming that entry; in general the
first failing lookup in evaluation order names the error. -/
theorem fromGist_missingField :
    (∀ g : Gist, lookupFile g.files "playground.ftl" = none →
      Playground.fromGist g = .error (.MissingField "playground.ftl"))
    ∧ (∀ (g : Gist) (m : String), get_file_content g "playground.ftl" = .ok m →
      lookupFile g.files "playground.json" = none →
      Playground.fromGist g = .error (.MissingField "playground.json"))
    ∧ (∀ (g : Gist) (m c : String) (v : Json),
      get_file_content g "playground.ftl" = .ok m →
      get_file_content g "playground.json" = .ok c → Json.parse c = some v →
      lookupFile g.files "setup.json" = none →
      Playground.fromGist g = .error (.MissingField "setup.json")) := by
  refine ⟨?_, ?_, ?_⟩
  · intro g h
    simp [Playground.fromGist, get_file_content, h]
  · intro g m h1 h2
    simp only [Playground.fromGist, h1, get_file_content.eq_def, h2]
  · intro g m c v h1 h2 h3 h4
    simp only [Playground.fromGist, h1, h2, parseContent.eq_def, h3,
      get_file_content.eq_def, h4]

/-- Claim C3, witness for the amended statement at concrete records. -/
theorem fromGist_missingField_witness :
    Playground.fromGist { id := "g", files := [("x", { content := some "y" })] } =
      .error (.MissingField "playground.ftl")
    ∧ Playground.fromGist
        { id := "g", files := [("playground.ftl", { content := some "m" })] } =
      .error (.MissingField "playground.json")
    ∧ Playground.fromGist
        { id := "g", files := [("playground.ftl", { content := some "m" }),
          ("playground.json", { content := some "null" })] } =
      .error (.MissingField "setup.json") :=
  ⟨fromGist_missingField.1 _ rfl,
   fromGist_missingField.2.1 _ "m" rfl rfl,
   fromGist_missingField.2.2 _ "m" "null" Json.null rfl rfl rfl rfl⟩

/-- Claim C4, counterexample: as stated the claim is false — a record whose
`playground.json` entry is present with content that is not valid JSON does
not necessarily fail with `MalformedContent` naming that entry: if
`playground.ftl` is absent, the mapper fails first with `MissingField
"playground.ftl"`. -/
theorem fromGist_malformed_counterexample :
    lookupFile (Gist.files { id := "g", files := [("playground.json", { content := some "[" })] })
        "playground.json" = some { content := some "[" } ∧
    Json.parse "[" = none ∧
    Playground.fromGist { id := "g", files := [("playground.json", { content := some "[" })] } =
      .error (.MissingField "playground.ftl") ∧
    MapError.MissingField "playground.ftl" ≠ MapError.MalformedContent "playground.json" := by
  exact ⟨rfl, rfl, rfl, by simp⟩

/-- Claim C4 (amended): for each JSON-bearing entry, `fromExternal` on a
record in which that entry is present but its content is not valid JSON —
the entries earlier in evaluation order being present and readable —
fails with `MalformedContent` naming that entry. -/
theorem fromGist_malformedContent :
    (∀ (g : Gist) (m c : String), get_file_content g "playground.ftl" = .ok m →
      get_file_content g "playground.json" = .ok c → Json.parse c = none →
      Playground.fromGist g = .error (.MalformedContent "playground.json"))
    ∧ (∀ (g : Gist) (m c : String) (v : Json) (c2 : String),
      get_file_content g "playground.ftl" = .ok m →
      get_file_content g "playground.json" = .ok c → Json.parse c = some v →
      get_file_content g "setup.json" = .ok c2 → Json.parse c2 = none →
      Playground.fromGist g = .error (.MalformedContent "setup.json")) := by
  constructor
  · intro g m c h1 h2 h3
    simp only [Playground.fromGist, h1, h2, parseContent.eq_def, h3]
  · intro g m c v c2 h1 h2 h3 h4 h5
    simp only [Playground.fromGist, h1, h2, parseContent.eq_def, h3, h4, h5]

/-- Claim C4, witness for the amended statement at concrete records. -/
theorem fromGist_malformedContent_witness :
    Playground.fromGist
        { id := "g", files := [("playground.ftl", { content := some "m" }),
          ("playground.json", { content := some "[" })] } =
      .error (.MalformedContent "playground.json")
    ∧ Playground.fromGist
        { id := "g", files := [("playground.ftl", { content := some "m" }),
          ("playground.json", { content := some "null" }),
          ("setup.json", { content := some "[" })] } =
      .error (.MalformedContent "setup.json") :=
  ⟨fromGist_malformedContent.1 _ "m" "[" rfl rfl rfl,
   fromGist_malformedContent.2 _ "m" "null" Json.null "[" rfl rfl rfl rfl rfl⟩

/-- Claim C5: for every request, a declared origin equal to the single
trusted origin `https://projectfluent.org` receives CORS headers permitting
that origin, exactly the methods GET and POST, the header `Content-Type`,
no credentialed access and a preflight max-age of 3600 seconds; any other
origin receives no permissive headers. -/
theorem cors_policy (origin : String) :
    (origin = "https://projectfluent.org" →
      corsHeadersFor corsConfig origin =
        some { allowOrigin := origin, allowMethods := [.get, .post],
               allowHeaders := ["Content-Type"], allowCredentials := false,
               maxAgeSeconds := 3600 })
    ∧ (origin ≠ "https://projectfluent.org" →
      corsHeadersFor corsConfig origin = none) := by
  constructor
  · intro h
    subst h
    rfl
  · intro h
    simp [corsHeadersFor, corsConfig, h]

/-- Claim C5, witness: the trusted origin is permitted with the exact
header set, a different origin receives nothing. -/
theorem cors_policy_witness :
    corsHeadersFor corsConfig "https://projectfluent.org" =
      some { allowOrigin := "https://projectfluent.org",
             allowMethods := [.get, .post], allowHeaders := ["Content-Type"],
             allowCredentials := false, maxAgeSeconds := 3600 }
    ∧ corsHeadersFor corsConfig "https://example.com" = none :=
  ⟨(cors_policy _).1 rfl, (cors_policy _).2 (by decide)⟩

/-- Claim C6: the create handler fails with `BadRequest` when the body is
malformed JSON or lacks a required snippet field, whatever the provider
call would do — so it fails before any mapper translation or provider
call. -/
theorem create_badRequest (body : String) (h : parsePlayground body = none) :
    ∀ create : GistOptions → Except ProviderError Gist,
      playground_create create body = .error .BadRequest := by
  intro create
  simp [playground_create, h]

/-- Claim C6, witness: a non-JSON body and a body missing `messages`, each
under an arbitrary provider function. -/
theorem create_badRequest_witness :
    parsePlayground "nope" = none ∧
    playground_create (fun _ => .error {}) "nope" = .error .BadRequest ∧
    parsePlayground "\x7b\"variables\":null,\"setup\":null\x7d" = none ∧
    playground_create (fun _ => .error {}) "\x7b\"variables\":null,\"setup\":null\x7d" =
      .error .BadRequest :=
  ⟨rfl, create_badRequest "nope" rfl _,
   rfl, create_badRequest "\x7b\"variables\":null,\"setup\":null\x7d" rfl _⟩

/-- Claim C7: the JSON response helper returns status 200 with JSON content
type and the serialized payload when serialization succeeds, and status 500
with the fixed error body when it fails; and it is the only source of
responses — every response any handler produces is a `json_response`
application. -/
theorem json_response_spec :
    (∀ (α : Type) (ser : α → Except SerError String) (payload : α) (body : String),
      ser payload = .ok body →
      json_response ser payload =
        { status := 200, contentType := "application/json", body := body })
    ∧ (∀ (α : Type) (ser : α → Except SerError String) (payload : α) (e : SerError),
      ser payload = .error e →
      json_response ser payload =
        { status := 500, contentType := "application/json",
          body := "\x7b\"error\": \"Error serializing response\"\x7d" })
    ∧ (∀ name version, index_get name version =
        json_response serIndex { name := name, version := version })
    ∧ (∀ (fetch : String → Except ProviderError Gist) (id : String) (r : HttpResponse),
      playground_get fetch id = .ok r → ∃ p, r = json_response serPlayground p)
    ∧ (∀ (create : GistOptions → Except ProviderError Gist) (body : String) (r : HttpResponse),
      playground_create create body = .ok r → ∃ p, r = json_response serPlayground p) := by
  refine ⟨?_, ?_, fun name version => rfl, ?_, ?_⟩
  · intro α ser payload body h
    simp [json_response, h]
  · intro α ser payload e h
    simp [json_response, h]
  · intro fetch id r h
    cases hf : fetch id with
    | error e => simp [playground_get, hf] at h
    | ok gist =>
      cases hg : Playground.fromGist gist with
      | error e => simp [playground_get, hf, hg] at h
      | ok p =>
        simp [playground_get, hf, hg] at h
        exact ⟨p, h.symm⟩
  · intro create body r h
    cases hp : parsePlayground body with
    | none => simp [playground_create, hp] at h
    | some p =>
      cases hc : create (GistOptions.fromPlayground p) with
      | error e => simp [playground_create, hp, hc] at h
      | ok gist =>
        cases hg : Playground.fromGist gist with
        | error e => simp [playground_create, hp, hc, hg] at h
        | ok p2 =>
          simp [playground_create, hp, hc, hg] at h
          exact ⟨p2, h.symm⟩

/-- Claim C7, witness: both branches of the helper at concrete payloads,
and a concrete successful create whose response is a `json_response`. -/
theorem json_response_spec_witness :
    json_response (fun _ : Nat => (.ok "1" : Except SerError String)) 0 =
      { status := 200, contentType := "application/json", body := "1" }
    ∧ json_response (fun _ : Nat => (.error {} : Except SerError String)) 0 =
      { status := 500, contentType := "application/json",
        body := "\x7b\"error\": \"Error serializing response\"\x7d" }
    ∧ ∃ p, json_response serPlayground
        { id := some "abc", messages := "m", vars := .null, setup := .null } =
          json_response serPlayground p :=
  ⟨json_response_spec.1 Nat _ 0 "1" rfl,
   json_response_spec.2.1 Nat _ 0 {} rfl,
   json_response_spec.2.2.2.2
     (fun _ => .ok (Gist.mk "abc"
       [("playground.ftl", GistFile.mk (some "m")),
        ("playground.json", GistFile.mk (some "null")),
        ("setup.json", GistFile.mk (some "null"))]))
     "\x7b\"messages\":\"m\",\"variables\":null,\"setup\":null\x7d" _ rfl⟩

/-- Helper: a successful `get_file_content` means the entry exists and its
optional content is populated. -/
theorem get_file_content_ok (g : Gist) (name c : String)
    (h : get_file_content g name = .ok c) :
    ∃ f, lookupFile g.files name = some f ∧ f.content = some c := by
  cases hl : lookupFile g.files name with
  | none => simp [get_file_content.eq_def, hl] at h
  | some f =>
    cases hc : f.content with
    | none => simp [get_file_content.eq_def, hl, hc] at h
    | some c2 =>
      simp only [get_file_content.eq_def, hl, hc] at h
      injection h with h2
      exact ⟨f, rfl, by rw [hc, h2]⟩

/-- Claim C8: wire-shape invariant — a snippet produced by `fromExternal`
carries the record's identifier in `id`; the serialization of a snippet
always carries the `messages`, `variables` and `setup` members; and a
request body only deserializes when all three members are present. -/
theorem wire_shape :
    (∀ (g : Gist) (p : Playground), Playground.fromGist g = .ok p → p.id = some g.id)
    ∧ (∀ p : Playground, ∃ kvs, playgroundToJson p = .obj kvs ∧
        lookupJson kvs "messages" = some (.str p.messages) ∧
        lookupJson kvs "variables" = some p.vars ∧
        lookupJson kvs "setup" = some p.setup)
    ∧ (∀ (s : String) (p : Playground), parsePlayground s = some p →
        ∃ kvs, Json.parse s = some (.obj kvs) ∧
          (∃ m, lookupJson kvs "messages" = some (.str m)) ∧
          (lookupJson kvs "variables").isSome ∧ (lookupJson kvs "setup").isSome) := by
  refine ⟨?_, ?_, ?_⟩
  · intro g p h
    simp only [Playground.fromGist] at h
    repeat' split at h
    all_goals cases h
    rfl
  · intro p
    refine ⟨_, rfl, ?_, ?_, ?_⟩ <;> simp [lookupJson]
  · intro s p h
    simp only [parsePlayground] at h
    cases hp : Json.parse s with
    | none => simp [hp] at h
    | some v =>
      rw [hp] at h
      cases v with
      | obj kvs =>
        cases hm : lookupJson kvs "messages" with
        | none => simp [hm] at h
        | some mv =>
          cases mv with
          | str m =>
            cases hv : lookupJson kvs "variables" with
            | none => simp [hm, hv] at h
            | some vv =>
              cases hs : lookupJson kvs "setup" with
              | none => simp [hm, hv, hs] at h
              | some sv =>
                exact ⟨kvs, rfl, ⟨m, hm⟩, by simp [hv], by simp [hs]⟩
          | null => simp [hm] at h
          | bool b => simp [hm] at h
          | num n => simp [hm] at h
          | arr xs => simp [hm] at h
          | obj o => simp [hm] at h
      | null => simp at h
      | bool b => simp at h
      | num n => simp at h
      | str s2 => simp at h
      | arr xs => simp at h

/-- Claim C8, witness: a fetched record's snippet has the record's id, and
a concrete well-formed request body deserializes with all members. -/
theorem wire_shape_witness :
    (Playground.mk (some "abc") "m" .null .null).id =
      some (Gist.mk "abc"
        [("playground.ftl", GistFile.mk (some "m")),
         ("playground.json", GistFile.mk (some "null")),
         ("setup.json", GistFile.mk (some "null"))]).id
    ∧ ∃ kvs,
        Json.parse "\x7b\"messages\":\"m\",\"variables\":null,\"setup\":null\x7d" =
          some (.obj kvs) ∧
        (∃ m, lookupJson kvs "messages" = some (.str m)) ∧
        (lookupJson kvs "variables").isSome ∧ (lookupJson kvs "setup").isSome :=
  ⟨wire_shape.1 _ _ rfl,
   wire_shape.2.2 _ (Playground.mk none "m" .null .null) rfl⟩

/-- Claim C9: `fromExternal` requires, for each of the three entries, not
only that the entry exists but that its optional content is populated; an
entry present with absent content is a distinct failure
(`MissingContent`), different from both `MissingField` and
`MalformedContent`. -/
theorem fromGist_requires_content :
    (∀ (g : Gist) (p : Playground), Playground.fromGist g = .ok p →
      ∀ name ∈ (["playground.ftl", "playground.json", "setup.json"] : List String),
        ∃ f c, lookupFile g.files name = some f ∧ f.content = some c)
    ∧ (∀ (g : Gist) (f : GistFile), lookupFile g.files "playground.ftl" = some f →
      f.content = none →
      Playground.fromGist g = .error (.MissingContent "playground.ftl"))
    ∧ (∀ n m : String,
      MapError.MissingContent n ≠ MapError.MissingField m ∧
      MapError.MissingContent n ≠ MapError.MalformedContent m) := by
  refine ⟨?_, ?_, ?_⟩
  · intro g p h name hmem
    simp only [Playground.fromGist] at h
    cases h1 : get_file_content g "playground.ftl" with
    | error e => simp [h1] at h
    | ok m1 =>
      cases h2 : get_file_content g "playground.json" with
      | error e => simp [h1, h2] at h
      | ok m2 =>
        cases h3 : parseContent "playground.json" m2 with
        | error e => simp [h1, h2, h3] at h
        | ok v2 =>
          cases h4 : get_file_content g "setup.json" with
          | error e => simp [h1, h2, h3, h4] at h
          | ok m3 =>
            simp only [List.mem_cons, List.mem_singleton, List.not_mem_nil,
              or_false] at hmem
            rcases hmem with rfl | rfl | rfl
            · obtain ⟨f, hf, hc⟩ := get_file_content_ok g _ _ h1
              exact ⟨f, m1, hf, hc⟩
            · obtain ⟨f, hf, hc⟩ := get_file_content_ok g _ _ h2
              exact ⟨f, m2, hf, hc⟩
            · obtain ⟨f, hf, hc⟩ := get_file_content_ok g _ _ h4
              exact ⟨f, m3, hf, hc⟩
  · intro g f h1 h2
    simp only [Playground.fromGist, get_file_content.eq_def, h1, h2]
  · intro n m
    exact ⟨by simp, by simp⟩

/-- Claim C9, witness: a complete record satisfies the presence conditions,
and a record whose entry has no content fails with `MissingContent`. -/
theorem fromGist_requires_content_witness :
    (∃ f c,
      lookupFile (Gist.mk "abc"
        [("playground.ftl", GistFile.mk (some "m")),
         ("playground.json", GistFile.mk (some "null")),
         ("setup.json", GistFile.mk (some "null"))]).files "playground.ftl" =
          some f ∧ f.content = some c)
    ∧ Playground.fromGist (Gist.mk "g" [("playground.ftl", GistFile.mk none)]) =
        .error (.MissingContent "playground.ftl") :=
  ⟨fromGist_requires_content.1
      (Gist.mk "abc"
        [("playground.ftl", GistFile.mk (some "m")),
         ("playground.json", GistFile.mk (some "null")),
         ("setup.json", GistFile.mk (some "null"))])
      (Playground.mk (some "abc") "m" .null .null) rfl "playground.ftl" (by simp),
   fromGist_requires_content.2.1 _ (GistFile.mk none) rfl rfl⟩
